import Mathlib

/-!
Shallow embedding of the `c_utf8` Rust crate (files `src/c_utf8.rs`,
`src/c_utf8_buf.rs`, `src/error.rs`, `src/ext.rs`).

Rust `&str` and `String` values are modelled as lists of bytes (`List Nat`,
each entry a byte value).  `usize` arithmetic is modelled on `Nat` with an
explicit modulus `2 ^ 64` where the source uses wrapping arithmetic, and
ordinary truncated `Nat` subtraction where the source uses `saturating_sub`.
-/

namespace CUtf8Spec

/-- The modulus of `usize` arithmetic (64-bit target). -/
def USIZE : Nat := 2 ^ 64

/-- `usize::wrapping_sub` for `a, b < USIZE`: `(a - b) mod 2^64`. -/
def wrappingSub (a b : Nat) : Nat := (a + USIZE - b) % USIZE

/-- `ext.rs`, `impl Ext for [u8]`: `self.last().cloned() == Some(0)`.
`str::is_nul_terminated` delegates to this over the byte form. -/
def is_nul_terminated (s : List Nat) : Bool := s.getLast? == some 0

/-- `core::str::Utf8Error`: offset of the longest valid prefix and, when
known, the length of the invalid byte sequence. -/
structure Utf8Error where
  valid_up_to : Nat
  error_len : Option Nat
deriving DecidableEq

/-- `error.rs`: the two error kinds of the crate. -/
inductive Error where
  | Nul : Error
  | Utf8 : Utf8Error → Error
deriving DecidableEq

/-- A UTF-8 continuation byte: `0x80 ..= 0xBF`. -/
def contByte (b : Nat) : Bool := 0x80 ≤ b && b ≤ 0xBF

/-- Second-byte admissibility for a three-byte sequence headed by `b`
(per `core::str::run_utf8_validation`). -/
def third2Ok (b c : Nat) : Bool :=
  if b = 0xE0 then 0xA0 ≤ c && c ≤ 0xBF
  else if b = 0xED then 0x80 ≤ c && c ≤ 0x9F
  else contByte c

/-- Second-byte admissibility for a four-byte sequence headed by `b`
(per `core::str::run_utf8_validation`). -/
def fourth2Ok (b c : Nat) : Bool :=
  if b = 0xF0 then 0x90 ≤ c && c ≤ 0xBF
  else if b = 0xF4 then 0x80 ≤ c && c ≤ 0x8F
  else contByte c

/-- The loop of `core::str::run_utf8_validation`, carrying the index of the
byte at the head of the remaining input. -/
def utf8Validate : List Nat → Nat → Except Utf8Error Unit
  | [], _ => .ok ()
  | b :: rest, i =>
    if b < 0x80 then utf8Validate rest (i + 1)
    else if b < 0xC2 then .error ⟨i, some 1⟩
    else if b < 0xE0 then
      match rest with
      | [] => .error ⟨i, none⟩
      | c :: rest2 =>
        if contByte c then utf8Validate rest2 (i + 2)
        else .error ⟨i, some 1⟩
    else if b < 0xF0 then
      match rest with
      | [] => .error ⟨i, none⟩
      | c :: rest2 =>
        if third2Ok b c then
          match rest2 with
          | [] => .error ⟨i, none⟩
          | d :: rest3 =>
            if contByte d then utf8Validate rest3 (i + 3)
            else .error ⟨i, some 2⟩
        else .error ⟨i, some 1⟩
    else if b < 0xF5 then
      match rest with
      | [] => .error ⟨i, none⟩
      | c :: rest2 =>
        if fourth2Ok b c then
          match rest2 with
          | [] => .error ⟨i, none⟩
          | d :: rest3 =>
            if contByte d then
              match rest3 with
              | [] => .error ⟨i, none⟩
              | e :: rest4 =>
                if contByte e then utf8Validate rest4 (i + 4)
                else .error ⟨i, some 3⟩
            else .error ⟨i, some 2⟩
        else .error ⟨i, some 1⟩
    else .error ⟨i, some 1⟩

/-- `core::str::from_utf8`: the bytes themselves on success, the decode
error otherwise. -/
def fromUtf8 (b : List Nat) : Except Utf8Error (List Nat) :=
  match utf8Validate b 0 with
  | .ok _ => .ok b
  | .error e => .error e

/-- `c_utf8.rs`: `pub struct CUtf8(str)` — a view whose payload is the
stored byte sequence, terminator included. -/
structure CUtf8 where
  bytes : List Nat
deriving DecidableEq

namespace CUtf8

/-- `CUtf8::from_str_unchecked`: reinterpret without any check. -/
def from_str_unchecked (s : List Nat) : CUtf8 := ⟨s⟩

/-- `CUtf8::from_bytes_unchecked`: reinterpret without any check. -/
def from_bytes_unchecked (b : List Nat) : CUtf8 := ⟨b⟩

/-- `CUtf8::from_str`: succeed exactly when the string is nul-terminated. -/
def from_str (s : List Nat) : Except Error CUtf8 :=
  if is_nul_terminated s then .ok (from_str_unchecked s) else .error Error.Nul

/-- `CUtf8::from_bytes`: `CUtf8::from_str(str::from_utf8(bytes)?)` —
UTF-8 validation runs first, its error is propagated via `From`. -/
def from_bytes (b : List Nat) : Except Error CUtf8 :=
  match fromUtf8 b with
  | .error e => .error (Error.Utf8 e)
  | .ok s => from_str s

/-- `CUtf8::len`: `self.0.len().wrapping_sub(1)`. -/
def len (c : CUtf8) : Nat := wrappingSub c.bytes.length 1

/-- `CUtf8::is_empty`: `self.0.len() == 1`. -/
def is_empty (c : CUtf8) : Bool := c.bytes.length == 1

/-- `CUtf8::as_str`: drop the nul, `self.0.len().saturating_sub(1)` bytes. -/
def as_str (c : CUtf8) : List Nat := c.bytes.take (c.bytes.length - 1)

/-- `CUtf8::as_str_with_nul`: the full stored payload. -/
def as_str_with_nul (c : CUtf8) : List Nat := c.bytes

/-- `CUtf8::as_bytes`: byte form of `as_str`. -/
def as_bytes (c : CUtf8) : List Nat := as_str c

/-- `CUtf8::as_bytes_with_nul`: byte form of `as_str_with_nul`. -/
def as_bytes_with_nul (c : CUtf8) : List Nat := as_str_with_nul c

end CUtf8

/-- `c_utf8_buf.rs`: `pub struct CUtf8Buf(String)` — an owned buffer whose
payload is the stored byte sequence, terminator included. -/
structure CUtf8Buf where
  string : List Nat
deriving DecidableEq

namespace CUtf8Buf

/-- `CUtf8Buf::new`: a single nul byte. -/
def new : CUtf8Buf := ⟨[0]⟩

/-- `CUtf8Buf::from_string`: append a nul terminator unless one is already
present. -/
def from_string (s : List Nat) : CUtf8Buf :=
  if is_nul_terminated s then ⟨s⟩ else ⟨s ++ [0]⟩

/-- `CUtf8Buf::from_string_unchecked`: adopt without checks. -/
def from_string_unchecked (s : List Nat) : CUtf8Buf := ⟨s⟩

/-- `Deref for CUtf8Buf`: reinterpret the buffer via
`CUtf8::from_str_unchecked`. -/
def deref (b : CUtf8Buf) : CUtf8 := CUtf8.from_str_unchecked b.string

/-- `CUtf8Buf::with_string`: pop the nul byte (a no-op on an empty vector),
run the native mutation, push one nul byte back. -/
def with_string (b : CUtf8Buf) (f : List Nat → List Nat) : CUtf8Buf :=
  ⟨f b.string.dropLast ++ [0]⟩

/-- `CUtf8Buf::push_str`: native `String::push_str` under `with_string`. -/
def push_str (b : CUtf8Buf) (s : List Nat) : CUtf8Buf :=
  with_string b (fun inner => inner ++ s)

/-- UTF-8 encoding of a code point, as `String::push` produces. -/
def utf8EncodeChar (c : Nat) : List Nat :=
  if c < 0x80 then [c]
  else if c < 0x800 then [0xC0 + c / 64, 0x80 + c % 64]
  else if c < 0x10000 then
    [0xE0 + c / 4096, 0x80 + c / 64 % 64, 0x80 + c % 64]
  else
    [0xF0 + c / 262144, 0x80 + c / 4096 % 64, 0x80 + c / 64 % 64,
      0x80 + c % 64]

/-- `CUtf8Buf::push`: native `String::push` under `with_string`. -/
def push (b : CUtf8Buf) (c : Nat) : CUtf8Buf :=
  with_string b (fun inner => inner ++ utf8EncodeChar c)

/-- `CUtf8Buf::into_string`: pop the trailing nul, return the rest. -/
def into_string (b : CUtf8Buf) : List Nat := b.string.dropLast

/-- `CUtf8Buf::into_bytes`: pop the trailing nul, return the bytes. -/
def into_bytes (b : CUtf8Buf) : List Nat := b.string.dropLast

end CUtf8Buf

/-- `ToOwned for CUtf8`: `CUtf8Buf(self.as_str_with_nul().into())`. -/
def CUtf8.to_owned (c : CUtf8) : CUtf8Buf := ⟨CUtf8.as_str_with_nul c⟩

end CUtf8Spec

namespace CUtf8Spec

theorem USIZE_pos : 0 < USIZE := by norm_num [USIZE]

theorem wrappingSub_one (a : Nat) (h1 : 1 ≤ a) (h2 : a ≤ USIZE) :
    wrappingSub a 1 = a - 1 := by
  have hU := USIZE_pos
  unfold wrappingSub
  have h3 : a + USIZE - 1 = (a - 1) + USIZE := by omega
  rw [h3, Nat.add_mod_right]
  exact Nat.mod_eq_of_lt (by omega)

theorem nul_dropLast_append (l : List Nat) (h : is_nul_terminated l = true) :
    l.dropLast ++ [0] = l := by
  unfold is_nul_terminated at h
  rw [beq_iff_eq] at h
  have hne : l ≠ [] := by
    intro he
    rw [he] at h
    simp at h
  have hg := List.getLast?_eq_getLast l hne
  rw [hg] at h
  have h0 : l.getLast hne = 0 := by injection h
  calc l.dropLast ++ [0] = l.dropLast ++ [l.getLast hne] := by rw [h0]
    _ = l := List.dropLast_append_getLast hne

theorem as_str_deref (b : CUtf8Buf) :
    CUtf8.as_str (CUtf8Buf.deref b) = b.string.dropLast := by
  simp [CUtf8.as_str, CUtf8Buf.deref, CUtf8.from_str_unchecked, List.dropLast_eq_take]

/-- Claim C1 counterexample: on a degenerate view with stored length 0
(obtained from the unchecked constructor on empty input), `CUtf8::len`
does not return 0 — `wrapping_sub` underflows to `2 ^ 64 - 1`. -/
theorem C1_counterexample :
    ¬ (CUtf8.len (CUtf8.from_bytes_unchecked []) = 0) := by decide

/-- Claim C1 (amended): `CUtf8::len` returns the stored length minus 1 when
the stored length is at least 1, and on stored length 0 it wraps around to
`USIZE - 1 = 2 ^ 64 - 1` rather than saturating to 0. -/
theorem C1_len (c : CUtf8) (h : c.bytes.length ≤ USIZE) :
    CUtf8.len c =
      if c.bytes.length = 0 then USIZE - 1 else c.bytes.length - 1 := by
  by_cases h0 : c.bytes.length = 0
  · rw [if_pos h0]
    unfold CUtf8.len
    rw [h0]
    decide
  · rw [if_neg h0]
    exact wrappingSub_one c.bytes.length (Nat.one_le_iff_ne_zero.mpr h0) h

theorem C1_len_witness :
    CUtf8.len (CUtf8.from_bytes_unchecked [72, 0]) = 1 := by
  have h := C1_len (CUtf8.from_bytes_unchecked [72, 0]) (by decide)
  simpa [CUtf8.from_bytes_unchecked] using h

/-- Claim C2: for bytes that are invalid UTF-8 and not nul-terminated,
`CUtf8::from_bytes` reports the UTF-8 error, never the nul error: the
UTF-8 validation of `str::from_utf8` runs strictly before the
trailing-nul check of `from_str`. -/
theorem C2_utf8_before_nul (b : List Nat) (e : Utf8Error)
    (hv : utf8Validate b 0 = Except.error e)
    (hn : is_nul_terminated b = false) :
    CUtf8.from_bytes b = Except.error (Error.Utf8 e) := by
  unfold CUtf8.from_bytes fromUtf8
  rw [hv]

theorem C2_witness :
    utf8Validate [255] 0 = Except.error ⟨0, some 1⟩ ∧
    is_nul_terminated [255] = false ∧
    CUtf8.from_bytes [255] = Except.error (Error.Utf8 ⟨0, some 1⟩) :=
  ⟨rfl, rfl, C2_utf8_before_nul [255] ⟨0, some 1⟩ rfl rfl⟩

/-- Claim C3: on a buffer whose last byte is nul, `push_str` and `push`
yield exactly the old content, then the appended text, then one nul byte;
when neither the old content nor the appended text contains a nul, the
result holds exactly one nul byte in total. -/
theorem C3_push_invariant (b : CUtf8Buf) (s : List Nat) (c : Nat)
    (h : is_nul_terminated b.string = true) :
    (CUtf8Buf.push_str b s).string =
      CUtf8.as_str (CUtf8Buf.deref b) ++ s ++ [0] ∧
    (CUtf8Buf.push b c).string =
      CUtf8.as_str (CUtf8Buf.deref b) ++ CUtf8Buf.utf8EncodeChar c ++ [0] ∧
    (0 ∉ CUtf8.as_str (CUtf8Buf.deref b) → 0 ∉ s →
      (CUtf8Buf.push_str b s).string.count 0 = 1) := by
  have hd := as_str_deref b
  refine ⟨?_, ?_, ?_⟩
  · simp [CUtf8Buf.push_str, CUtf8Buf.with_string, hd]
  · simp [CUtf8Buf.push, CUtf8Buf.with_string, hd]
  · intro h1 h2
    rw [hd] at h1
    simp [CUtf8Buf.push_str, CUtf8Buf.with_string, List.count_append,
      List.count_eq_zero.mpr h1, List.count_eq_zero.mpr h2]

theorem C3_push_invariant_witness :
    (CUtf8Buf.push_str ⟨[72, 105, 0]⟩ [33]).string = [72, 105, 33, 0] ∧
    (CUtf8Buf.push ⟨[72, 105, 0]⟩ 33).string = [72, 105, 33, 0] ∧
    (CUtf8Buf.push_str ⟨[72, 105, 0]⟩ [33]).string.count 0 = 1 := by
  have h := C3_push_invariant ⟨[72, 105, 0]⟩ [33] 33 rfl
  exact ⟨h.1, h.2.1, h.2.2 (by decide) (by decide)⟩

/-- Claim C4: converting a valid view to an owned buffer with `to_owned`
and then extracting with `into_string` returns exactly the view's content
without the trailing nul, i.e. `as_str`. -/
theorem C4_roundtrip (c : CUtf8) (h : is_nul_terminated c.bytes = true) :
    CUtf8Buf.into_string (CUtf8.to_owned c) = CUtf8.as_str c := by
  simp [CUtf8Buf.into_string, CUtf8.to_owned, CUtf8.as_str_with_nul,
    CUtf8.as_str, List.dropLast_eq_take]

theorem C4_roundtrip_witness :
    CUtf8Buf.into_string (CUtf8.to_owned ⟨[72, 105, 0]⟩) = [72, 105] := by
  have h := C4_roundtrip ⟨[72, 105, 0]⟩ rfl
  simpa [CUtf8.as_str] using h

/-- Claim C5: `CUtf8::from_str` succeeds, returning a view over exactly the
input bytes, if and only if the last byte is 0; otherwise it fails with
`Error::Nul`. No validation other than the trailing-nul check occurs. -/
theorem C5_from_str (s : List Nat) :
    (CUtf8.from_str s = Except.ok (CUtf8.from_str_unchecked s) ↔
      is_nul_terminated s = true) ∧
    (is_nul_terminated s = false →
      CUtf8.from_str s = Except.error Error.Nul) := by
  cases hn : is_nul_terminated s with
  | true => simp [CUtf8.from_str, hn]
  | false => simp [CUtf8.from_str, hn]

theorem C5_from_str_witness :
    CUtf8.from_str [72] = Except.error Error.Nul ∧
    CUtf8.from_str [72, 0] = Except.ok (CUtf8.from_str_unchecked [72, 0]) :=
  ⟨(C5_from_str [72]).2 rfl, (C5_from_str [72, 0]).1.mpr rfl⟩

/-- Claim C6: `CUtf8Buf::from_string` adopts the input unchanged when it
already ends in a nul byte and otherwise appends exactly one nul byte; the
result is always nul-terminated. -/
theorem C6_from_string (s : List Nat) :
    (is_nul_terminated s = true → (CUtf8Buf.from_string s).string = s) ∧
    (is_nul_terminated s = false →
      (CUtf8Buf.from_string s).string = s ++ [0]) ∧
    is_nul_terminated (CUtf8Buf.from_string s).string = true := by
  cases hn : is_nul_terminated s with
  | true => simpa [CUtf8Buf.from_string, hn] using hn
  | false =>
    have h2 : (CUtf8Buf.from_string s).string = s ++ [0] := by
      unfold CUtf8Buf.from_string
      rw [hn]
      simp
    refine ⟨by simp [hn], fun _ => h2, ?_⟩
    rw [h2]
    simp [is_nul_terminated, List.getLast?_concat]

theorem C6_from_string_witness :
    (CUtf8Buf.from_string [72, 101, 108, 108, 111]).string =
      [72, 101, 108, 108, 111, 0] ∧
    (CUtf8Buf.from_string [72, 105, 0]).string = [72, 105, 0] :=
  ⟨(C6_from_string [72, 101, 108, 108, 111]).2.1 rfl,
    (C6_from_string [72, 105, 0]).1 rfl⟩

/-- Claim C7: appending the empty string to a buffer whose last byte is nul
leaves the buffer unchanged, stored bytes included. -/
theorem C7_push_empty (b : CUtf8Buf) (h : is_nul_terminated b.string = true) :
    CUtf8Buf.push_str b [] = b := by
  cases b with
  | mk l =>
    have hs : l.dropLast ++ [0] = l := nul_dropLast_append l h
    show CUtf8Buf.mk (l.dropLast ++ [] ++ [0]) = CUtf8Buf.mk l
    rw [List.append_nil, hs]

theorem C7_push_empty_witness :
    CUtf8Buf.push_str ⟨[72, 105, 0]⟩ [] = ⟨[72, 105, 0]⟩ :=
  C7_push_empty ⟨[72, 105, 0]⟩ rfl

/-- Claim C8: `CUtf8::is_empty` holds exactly when the stored length is 1,
and (for stored lengths within `usize` range) exactly when `len` is 0. -/
theorem C8_is_empty (c : CUtf8) (h : c.bytes.length ≤ USIZE) :
    (CUtf8.is_empty c = true ↔ c.bytes.length = 1) ∧
    (CUtf8.is_empty c = true ↔ CUtf8.len c = 0) := by
  have h1 : CUtf8.is_empty c = true ↔ c.bytes.length = 1 := by
    simp [CUtf8.is_empty]
  refine ⟨h1, h1.trans ⟨fun hl => ?_, fun hl => ?_⟩⟩
  · rw [CUtf8.len, hl]
    decide
  · rcases Nat.eq_zero_or_pos c.bytes.length with h0 | hp
    · exfalso
      rw [CUtf8.len, h0] at hl
      revert hl
      decide
    · have hw := wrappingSub_one c.bytes.length hp h
      rw [CUtf8.len, hw] at hl
      omega

theorem C8_is_empty_witness :
    CUtf8.is_empty (CUtf8.from_str_unchecked [0]) = true ∧
    CUtf8.len (CUtf8.from_str_unchecked [0]) = 0 := by
  have h := C8_is_empty (CUtf8.from_str_unchecked [0]) (by decide)
  exact ⟨h.1.mpr rfl, h.2.mp (h.1.mpr rfl)⟩

/-- Claim C9: the empty input has no last byte, so the trailing-nul check
fails and both `from_str` and `from_bytes` reject it with `Error::Nul`. -/
theorem C9_empty_rejected :
    CUtf8.from_str [] = Except.error Error.Nul ∧
    CUtf8.from_bytes [] = Except.error Error.Nul :=
  ⟨rfl, rfl⟩

/-- Claim C10: `CUtf8::from_str` accepts any input whose final byte is 0,
even when a nul byte also occurs strictly before the final position — the
no-interior-nul invariant is not enforced by validation. -/
theorem C10_interior_nul (s : List Nat) (i : Nat)
    (hi : i + 1 < s.length) (hz : s.get? i = some 0)
    (h : is_nul_terminated s = true) :
    CUtf8.from_str s = Except.ok (CUtf8.from_str_unchecked s) := by
  simp [CUtf8.from_str, h]

theorem C10_interior_nul_witness :
    CUtf8.from_str [65, 0, 0] = Except.ok (CUtf8.from_str_unchecked [65, 0, 0]) :=
  C10_interior_nul [65, 0, 0] 1 (by decide) rfl rfl

end CUtf8Spec
